import Mathlib

/-!
Verification of the linkshelf catalog scripts
(`.github/scripts/update-readme.py` and `.github/scripts/validate_articles.py`).

Documents are modelled as `List Char`.  The Python regular expressions used by
the scripts are small and fixed, so each one is embedded as a dedicated total
function whose semantics follow the CPython `re` engine on that particular
pattern (leftmost match, greedy/lazy quantifier preference, `re.DOTALL` /
`re.MULTILINE` flags as used at each call site).  `datetime` values are
modelled by the structure `PyDT` (year, month, day, seconds-within-day),
ordered lexicographically as CPython orders `datetime` objects; the current
processing time and a file's modification time are explicit parameters.
`str.strip`, `str.split`, `datetime.strptime("%Y-%m-%d")` (including its
backtracking alternations for month and day and the calendar-validity check
performed by the `datetime` constructor) are embedded directly.
-/

/-- Python `\s` / `str.strip` whitespace on ASCII text. -/
def pySpaceB (c : Char) : Bool :=
  c = ' ' || c = '\t' || c = '\n' || c = '\r' || c = '\x0b' || c = '\x0c'

/-- The characters matched by the character class `[\n\r]`. -/
def isNL (c : Char) : Bool :=
  c = '\n' || c = '\r'

/-- `str.strip()`. -/
def pyStrip (s : List Char) : List Char :=
  ((s.dropWhile pySpaceB).reverse.dropWhile pySpaceB).reverse

/-- `str.split(sep)` for a one-character separator: always at least one piece. -/
def pySplit (sep : Char) : List Char → List (List Char)
  | [] => [[]]
  | c :: rest =>
    let r := pySplit sep rest
    if c = sep then [] :: r
    else (c :: r.headD []) :: r.tail

/-- `isPre pat s` : `pat` is a prefix of `s` (plain character comparison). -/
def isPre : List Char → List Char → Bool
  | [], _ => true
  | _ :: _, [] => false
  | a :: as, b :: bs => a = b && isPre as bs

/-- `s` contains `lit` as a contiguous substring (Python `re.search` on a literal). -/
def containsSub (lit : List Char) : List Char → Bool
  | [] => lit.isEmpty
  | c :: rest => isPre lit (c :: rest) || containsSub lit rest

/-- Suffix of `s` just after the first occurrence of `lit`, if any. -/
def firstOccSuffix (lit : List Char) : List Char → Option (List Char)
  | [] => if lit.isEmpty then some [] else none
  | c :: rest =>
    if isPre lit (c :: rest) then some ((c :: rest).drop lit.length)
    else firstOccSuffix lit rest

/-!  ## DocumentPatcher (`update_readme_file`)

`re.sub(f"{MARKER}.*?(?=^#|$)", replacement, text, flags=re.DOTALL | re.MULTILINE)`.
The pattern is the literal marker followed by a lazy `.*?` (any character,
`re.DOTALL`) that stops at the first position where the lookahead `^#` (a `#`
at a line start, `re.MULTILINE`) or `$` (before a `'\n'` or at the end of the
input, `re.MULTILINE`) holds.  `re.sub` replaces every non-overlapping match,
resuming the scan after each match; the replacement text is inserted verbatim
(none of the rendered blocks contain backslash group references). -/

/-- Lazy scan of `.*?(?=^#|$)` under DOTALL+MULTILINE: starting with
line-start flag `atLS`, return the unconsumed suffix at the first position
where the lookahead holds (the end of input always satisfies `$`). -/
def scanStop : Bool → List Char → List Char
  | _, [] => []
  | atLS, c :: rest =>
    if (atLS && c = '#') || c = '\n' then c :: rest
    else scanStop (c = '\n') rest

theorem scanStop_length_le : ∀ (b : Bool) (s : List Char), (scanStop b s).length ≤ s.length := by
  intro b s
  induction s generalizing b with
  | nil => simp [scanStop]
  | cons c rest ih =>
    simp only [scanStop]
    split
    · exact Nat.le_refl _
    · exact Nat.le_trans (ih (c = '\n')) (Nat.le_succ _)

/-- One `re.sub` pass for the pattern `marker.*?(?=^#|$)` (marker given as
`mc :: mrest`, hence non-empty), replacing every match by `repl`.  Fuelled
structural recursion; each step consumes at least one input character, so
`fuel = s.length` suffices. -/
def reSubAux (mc : Char) (mrest repl : List Char) : Nat → List Char → List Char
  | 0, s => s
  | _ + 1, [] => []
  | fuel + 1, c :: rest =>
    if isPre (mc :: mrest) (c :: rest) then
      repl ++ reSubAux mc mrest repl fuel (scanStop (mrest.getLastD mc = '\n') (rest.drop mrest.length))
    else
      c :: reSubAux mc mrest repl fuel rest

def reSubAll (mc : Char) (mrest repl s : List Char) : List Char :=
  reSubAux mc mrest repl s.length s

def RECENT_ARTICLES_MARKER : List Char := "## Recently Added Articles".data

def STATISTICS_MARKER : List Char := "## Statistics".data

/-- `update_readme_file`, as a pure function from the current README text and
the two rendered section blocks to the text that is written back: the
recent-articles substitution followed by the statistics substitution. -/
def update_readme_file (recentSec statSec readme : List Char) : List Char :=
  let r1 := reSubAll '#' "# Recently Added Articles".data recentSec readme
  reSubAll '#' "# Statistics".data statSec r1

/-- If the (non-empty) marker never occurs in `s`, the substitution never
fires: `reSubAux` walks `s` unchanged. -/
theorem reSubAux_of_not_contains (mc : Char) (mrest repl : List Char) :
    ∀ (fuel : Nat) (s : List Char), containsSub (mc :: mrest) s = false →
      reSubAux mc mrest repl fuel s = s := by
  intro fuel
  induction fuel with
  | zero => intro s _; rfl
  | succ n ih =>
    intro s h
    cases s with
    | nil => rfl
    | cons c rest =>
      simp only [containsSub, Bool.or_eq_false_iff] at h
      simp only [reSubAux, h.1, if_neg Bool.false_ne_true]
      rw [ih rest h.2]

theorem reSubAll_of_not_contains (mc : Char) (mrest repl s : List Char)
    (h : containsSub (mc :: mrest) s = false) : reSubAll mc mrest repl s = s :=
  reSubAux_of_not_contains mc mrest repl s.length s h

/-!  ## Dates (`datetime`)  -/

/-- A CPython `datetime`, reduced to the fields the scripts observe: year,
month, day, and a sub-day component (seconds within the day) that only
matters for ordering.  `datetime` objects compare lexicographically. -/
structure PyDT where
  y : Nat
  mo : Nat
  d : Nat
  t : Nat
deriving DecidableEq, Repr, Inhabited

/-- `a < b` for `datetime` values (lexicographic). -/
def dtLtB (a b : PyDT) : Bool :=
  decide (a.y < b.y ∨ (a.y = b.y ∧ (a.mo < b.mo ∨ (a.mo = b.mo ∧
    (a.d < b.d ∨ (a.d = b.d ∧ a.t < b.t))))))

/-- Decimal digits of a `Nat` (`Nat.repr`). -/
def natStr (n : Nat) : List Char := (Nat.repr n).data

/-- Zero-pad to two digits (`strftime` `%m` / `%d`). -/
def pad2 (n : Nat) : List Char :=
  if n < 10 then '0' :: natStr n else natStr n

/-- Zero-pad to four digits (`strftime` `%Y`; below year 1000 the padding is
platform dependent in CPython, the glibc/zero-padded rendering is used here —
all years produced by `strptime` from four-digit input agree anyway). -/
def pad4 (n : Nat) : List Char :=
  if n < 10 then '0' :: '0' :: '0' :: natStr n
  else if n < 100 then '0' :: '0' :: natStr n
  else if n < 1000 then '0' :: natStr n
  else natStr n

/-- `strftime('%Y-%m-%d')`. -/
def fmtYmd (a : PyDT) : List Char :=
  pad4 a.y ++ '-' :: pad2 a.mo ++ '-' :: pad2 a.d

def digitVal (c : Char) : Nat := c.toNat - 48

/-- Month alternatives of `_strptime`'s `%m` regex `(1[0-2]|0[1-9]|[1-9])`,
as (value, rest) candidates in the order the backtracking engine tries them. -/
def mCands : List Char → List (Nat × List Char)
  | s =>
    (match s with
     | '1' :: c :: r => if '0' ≤ c ∧ c ≤ '2' then [(10 + digitVal c, r)] else []
     | _ => []) ++
    (match s with
     | '0' :: c :: r => if '1' ≤ c ∧ c ≤ '9' then [(digitVal c, r)] else []
     | _ => []) ++
    (match s with
     | c :: r => if '1' ≤ c ∧ c ≤ '9' then [(digitVal c, r)] else []
     | _ => [])

/-- Day alternatives of `_strptime`'s `%d` regex `(3[01]|[12]\d|0[1-9]|[1-9])`. -/
def dCands : List Char → List (Nat × List Char)
  | s =>
    (match s with
     | '3' :: c :: r => if '0' ≤ c ∧ c ≤ '1' then [(30 + digitVal c, r)] else []
     | _ => []) ++
    (match s with
     | c1 :: c2 :: r =>
       if ('1' ≤ c1 ∧ c1 ≤ '2') ∧ ('0' ≤ c2 ∧ c2 ≤ '9')
       then [(10 * digitVal c1 + digitVal c2, r)] else []
     | _ => []) ++
    (match s with
     | '0' :: c :: r => if '1' ≤ c ∧ c ≤ '9' then [(digitVal c, r)] else []
     | _ => []) ++
    (match s with
     | c :: r => if '1' ≤ c ∧ c ≤ '9' then [(digitVal c, r)] else []
     | _ => [])

def isLeap (y : Nat) : Bool :=
  y % 4 = 0 && (y % 100 ≠ 0 || y % 400 = 0)

def daysInMonth (y m : Nat) : Nat :=
  if m = 2 then (if isLeap y then 29 else 28)
  else if m = 4 ∨ m = 6 ∨ m = 9 ∨ m = 11 then 30
  else 31

/-- `datetime.strptime(s, '%Y-%m-%d')`: `%Y` is exactly four digits, the
whole string must be consumed, the month/day alternations backtrack in the
engine's preference order, and the resulting triple must be a valid calendar
date (the `datetime` constructor raises `ValueError` otherwise; year 0 is
below `MINYEAR`). -/
def strptimeYmd (s : List Char) : Option (Nat × Nat × Nat) :=
  match s with
  | a :: b :: c :: d :: '-' :: rest =>
    if (a.isDigit ∧ b.isDigit ∧ c.isDigit ∧ d.isDigit) then
      let y := 1000 * digitVal a + 100 * digitVal b + 10 * digitVal c + digitVal d
      match
        (mCands rest).findSome? (fun mr =>
          match mr.2 with
          | '-' :: rest2 =>
            (dCands rest2).findSome? (fun dr =>
              if dr.2.isEmpty then some (mr.1, dr.1) else none)
          | _ => none)
      with
      | some (m, dd) =>
        if 1 ≤ y ∧ dd ≤ daysInMonth y m then some (y, m, dd) else none
      | none => none
    else none
  | _ => none

/-!  ## FieldExtractor

Each pattern of the shared rule table is embedded as a function with the
`re.search` semantics of its call sites.

`\*\*Label:\*\*\s*(.*?)[\n\r]` (no flags): at the first occurrence of the
literal whose suffix contains a `'\n'` or `'\r'`, the greedy `\s*` takes the
maximal whitespace run; the lazy group then runs to the first `'\n'`/`'\r'`.
If no `'\n'`/`'\r'` follows the whitespace run but the run itself contains
one, the greedy `\s*` backtracks to just before its last newline and the
group is empty.  Occurrences are monotone: if the first occurrence has no
`'\n'`/`'\r'` after it, no later one does, so the search fails. -/
def labeledValue (lit content : List Char) : Option (List Char) :=
  match firstOccSuffix lit content with
  | none => none
  | some suf =>
    let w := suf.takeWhile pySpaceB
    let rest := suf.drop w.length
    if rest.any isNL then some (rest.takeWhile (fun c => !(isNL c)))
    else if w.any isNL then some []
    else none

/-- `\*\*Tags:\*\*\s*(.*?)$` with `re.MULTILINE`: always matches at the first
occurrence of the literal; after the greedy `\s*`, the lazy group stops at
the first position where `$` holds (before a `'\n'` or at the end), so the
value runs to the first `'\n'` or the end of the input. -/
def tagsValue (content : List Char) : Option (List Char) :=
  (firstOccSuffix "**Tags:**".data content).map (fun suf =>
    let rest := suf.drop (suf.takeWhile pySpaceB).length
    rest.takeWhile (fun c => c != '\n'))

/-- Index of the first adjacent `"]("` pair. -/
def findAdjRB : List Char → Option Nat
  | ']' :: '(' :: _ => some 0
  | _ :: rest => (findAdjRB rest).map (· + 1)
  | [] => none

/-- Index of the first occurrence of a character. -/
def findCh (ch : Char) : List Char → Option Nat
  | [] => none
  | c :: rest => if c = ch then some 0 else (findCh ch rest).map (· + 1)

/-- Continuation of `#.*\[(.*?)\]\((.*?)\)` after a chosen `'['`: the lazy
first group runs to the first `"]("`, the lazy second group to the first
`')'` after it. -/
def tryFromLB (afterLB : List Char) : Option (List Char × List Char) :=
  match findAdjRB afterLB with
  | none => none
  | some j =>
    let afterKet := afterLB.drop (j + 2)
    match findCh ')' afterKet with
    | none => none
    | some u => some (afterLB.take j, afterKet.take u)

/-- Suffixes just after each `'['`, left to right. -/
def bracketStarts : List Char → List (List Char)
  | [] => []
  | c :: rest =>
    if c = '[' then rest :: bracketStarts rest else bracketStarts rest

/-- Match of `#.*\[(.*?)\]\((.*?)\)` within the text after a `'#'`, restricted
to the rest of that line (without `re.DOTALL` no part of the pattern crosses
`'\n'`).  The greedy `.*` prefers the rightmost `'['` whose continuation
succeeds. -/
def titleInLine (lineRest : List Char) : Option (List Char × List Char) :=
  (bracketStarts lineRest).reverse.findSome? tryFromLB

/-- `re.search(r'#.*\[(.*?)\]\((.*?)\)', content)` (no flags): scan left to
right for a `'#'` whose line admits the continuation; groups are
(title, url). -/
def titleSearch : List Char → Option (List Char × List Char)
  | [] => none
  | c :: rest =>
    if c = '#' then
      match titleInLine (rest.takeWhile (fun ch => ch != '\n')) with
      | some r => some r
      | none => titleSearch rest
    else titleSearch rest

/-- `[tag.strip() for tag in tags_str.split('#') if tag.strip()]`. -/
def parseTags (v : List Char) : List (List Char) :=
  ((pySplit '#' v).map pyStrip).filter (fun t => !t.isEmpty)

def authorLit : List Char := "**Author:**".data
def addedOnLit : List Char := "**Added on:**".data
def addedByLit : List Char := "**Added by:**".data
def dateLit : List Char := "**Date:**".data

/-- The record built by `extract_article_info`: one field per dictionary key
the function can set; `Option` marks the keys that are present only when the
corresponding rule matched. -/
structure Article where
  title : List Char
  url : List Char
  author : Option (List Char)
  added_on : List Char
  date_obj : PyDT
  added_by : Option (List Char)
  pub_date : Option (List Char)
  tags : Option (List (List Char))
  path : List Char
  topic : Option (List Char)
  subtopic : Option (List Char)
deriving DecidableEq, Repr, Inhabited

/-- `extract_article_info`, with the file's content already loaded and the
ambient times (`datetime.now()`, the file's mtime as a `datetime`) passed
explicitly. -/
def extract_article_info (content path : List Char) (now mtime : PyDT) :
    Option Article :=
  match titleSearch content with
  | none => none
  | some tu =>
    let addedPair : List Char × PyDT :=
      match labeledValue addedOnLit content with
      | some v =>
        match strptimeYmd (pyStrip v) with
        | some ymd => (pyStrip v, ⟨ymd.1, ymd.2.1, ymd.2.2, 0⟩)
        | none => (pyStrip v, now)
      | none => (fmtYmd mtime, mtime)
    let parts := pySplit '/' path
    some
      { title := tu.1
        url := tu.2
        author := (labeledValue authorLit content).map pyStrip
        added_on := addedPair.1
        date_obj := addedPair.2
        added_by := (labeledValue addedByLit content).map pyStrip
        pub_date := (labeledValue dateLit content).map pyStrip
        tags := (tagsValue content).map (fun v => parseTags (pyStrip v))
        path := path
        topic := if 2 ≤ parts.length then some (parts.get! 1) else none
        subtopic :=
          if 3 ≤ parts.length then
            some (List.intercalate "/".data (parts.drop 2).dropLast)
          else none }

/-!  ## Aggregator and IndexRenderer (`generate_statistics`,
`format_recent_articles_section`)  -/

/-- `defaultdict(int)[k] += 1` on an insertion-ordered dictionary, modelled
as an association list: an existing key is incremented in place, a new key is
appended (keys therefore appear in first-touch order). -/
def bumpCount : List (List Char × Nat) → List Char → List (List Char × Nat)
  | [], k => [(k, 1)]
  | (k', c) :: rest, k =>
    if k' = k then (k', c + 1) :: rest else (k', c) :: bumpCount rest k

/-- Occurrence counts of a label stream, in first-seen key order
(`dict.items()` of the accumulated `defaultdict`). -/
def countsFold (ls : List (List Char)) : List (List Char × Nat) :=
  ls.foldl bumpCount []

/-- Insert into a count-descending list, after strictly greater counts and
before equal or smaller ones. -/
def insertDesc (x : List Char × Nat) : List (List Char × Nat) → List (List Char × Nat)
  | [] => [x]
  | y :: ys => if x.2 < y.2 then y :: insertDesc x ys else x :: y :: ys

/-- `sorted(items, key=lambda x: x[1], reverse=True)`: the stable
count-descending sort (CPython's sort is stable, and `reverse=True` preserves
stability; a stable sort with respect to a total preorder is unique, so this
insertion sort computes the same list). -/
def sortDesc : List (List Char × Nat) → List (List Char × Nat)
  | [] => []
  | x :: xs => insertDesc x (sortDesc xs)

/-- `article.get('topic', 'Uncategorized')`. -/
def topicLabel (a : Article) : List Char :=
  a.topic.getD "Uncategorized".data

/-- `article.get('added_by', 'Unknown')`. -/
def contribLabel (a : Article) : List Char :=
  a.added_by.getD "Unknown".data

/-- `article.get('tags', [])`: the accessor used by the statistics pass. -/
def tagsOf (a : Article) : List (List Char) :=
  a.tags.getD []

/-- The tag label stream: each record contributes one increment per tag, in
record order. -/
def tagStream (arts : List Article) : List (List Char) :=
  (arts.map tagsOf).flatten

/-- `sorted(stats['topics'].items(), key=lambda x: x[1], reverse=True)[:5]`. -/
def topTopics (arts : List Article) : List (List Char × Nat) :=
  (sortDesc (countsFold (arts.map topicLabel))).take 5

/-- `sorted(stats['contributors'].items(), key=lambda x: x[1], reverse=True)[:5]`. -/
def topContributors (arts : List Article) : List (List Char × Nat) :=
  (sortDesc (countsFold (arts.map contribLabel))).take 5

/-- `sorted(stats['tags'].items(), key=lambda x: x[1], reverse=True)[:10]`. -/
def topTags (arts : List Article) : List (List Char × Nat) :=
  (sortDesc (countsFold (tagStream arts))).take 10

/-- `max([a['date_obj'] for a in articles])` over a head and tail: CPython's
`max` keeps the current value unless a later item is strictly greater (so the
first maximal element wins ties). -/
def pyMaxDT (d : PyDT) (ds : List PyDT) : PyDT :=
  ds.foldl (fun cur x => if dtLtB cur x then x else cur) d

/-- `stats['latest_update']`: the maximal `date_obj` rendered with
`strftime('%Y-%m-%d')`, or the sentinel `'N/A'` on an empty catalog. -/
def latest_update (arts : List Article) : List Char :=
  match arts.map (fun a => a.date_obj) with
  | [] => "N/A".data
  | d :: ds => fmtYmd (pyMaxDT d ds)

/-- One `- {label}: {count} {word}\n` statistics line, with `pre` prepended
to the label (`'#'` for tags, nothing otherwise). -/
def statLine (pre : List Char) (word : List Char) (p : List Char × Nat) : List Char :=
  "- ".data ++ pre ++ p.1 ++ ": ".data ++ natStr p.2 ++ word

/-- The statistics section text built by `generate_statistics`. -/
def generate_statistics (arts : List Article) : List Char :=
  STATISTICS_MARKER ++ "\n\n".data
    ++ "- **Total Articles:** ".data ++ natStr arts.length ++ "\n".data
    ++ "- **Last Updated:** ".data ++ latest_update arts ++ "\n".data
    ++ "\n### Top Topics\n\n".data
    ++ ((topTopics arts).map (statLine [] " articles\n".data)).flatten
    ++ "\n### Top Contributors\n\n".data
    ++ ((topContributors arts).map (statLine [] " articles\n".data)).flatten
    ++ "\n### Popular Tags\n\n".data
    ++ ((topTags arts).map (statLine "#".data " occurrences\n".data)).flatten

/-- `f"{topic_path}/{subtopic}" if subtopic else topic_path` with the two
`get(..., '')` defaults. -/
def fullTopic (a : Article) : List Char :=
  let t := a.topic.getD []
  let s := a.subtopic.getD []
  if s.isEmpty then t else t ++ "/".data ++ s

/-- The per-article block rendered by `format_recent_articles_section`. -/
def articleBlock (a : Article) : List Char :=
  "### [".data ++ a.title ++ "](".data ++ a.url ++ ")\n\n".data
    ++ (match a.author with
        | some au => "**Author:** ".data ++ au ++ "  \n".data
        | none => [])
    ++ (match a.pub_date with
        | some p => "**Date:** ".data ++ p ++ "  \n".data
        | none => [])
    ++ (match a.added_by with
        | some ab => "**Added by:** ".data ++ ab ++ "  \n".data
        | none => [])
    ++ "**Added on:** ".data ++ a.added_on ++ "  \n".data
    ++ "**Category:** ".data ++ fullTopic a ++ "  \n".data
    ++ (match a.tags with
        | some (t :: ts) =>
          "**Tags:** ".data
            ++ List.intercalate " ".data (((t :: ts)).map (fun tg => '#' :: tg))
            ++ "  \n".data
        | _ => [])
    ++ "\n".data

/-- `format_recent_articles_section`. -/
def format_recent_articles_section (arts : List Article) : List Char :=
  if arts.isEmpty then
    RECENT_ARTICLES_MARKER ++ "\n\nNo articles added yet.".data
  else
    RECENT_ARTICLES_MARKER ++ "\n\n".data ++ (arts.map articleBlock).flatten

/-!  ## ValidationEngine (`validate_article_format`)

The presence loop re-runs every rule-table pattern with
`re.DOTALL | re.MULTILINE`, which changes their semantics: `.` crosses
newlines, so the title pattern only needs `'#'`, `'['`, `"]("`, `')'`
in order anywhere in the document, and a labeled pattern only needs its
literal followed eventually by a `'\n'` or `'\r'`.  The value checks below
the loop re-run the title/date patterns without flags and the tags pattern
with `re.MULTILINE`, exactly as the extractor does. -/

/-- Suffix after the first occurrence of one character. -/
def afterFirstCh (ch : Char) : List Char → Option (List Char)
  | [] => none
  | c :: rest => if c = ch then some rest else afterFirstCh ch rest

/-- Suffix after the first adjacent `"]("`. -/
def afterFirstAdjRB : List Char → Option (List Char)
  | ']' :: '(' :: rest => some rest
  | _ :: rest => afterFirstAdjRB rest
  | [] => none

/-- Presence of `#.*\[(.*?)\]\((.*?)\)` under DOTALL: a `'#'`, then a `'['`,
then `"]("`, then `')'`, in order (earliest-first scanning is complete
because later witnesses remain available in every suffix). -/
def presTitle (s : List Char) : Bool :=
  match afterFirstCh '#' s with
  | none => false
  | some s1 =>
    match afterFirstCh '[' s1 with
    | none => false
    | some s2 =>
      match afterFirstAdjRB s2 with
      | none => false
      | some s3 => s3.any (fun c => c = ')')

/-- Presence of `\*\*Label:\*\*\s*(.*?)[\n\r]` under DOTALL: the literal with
some `'\n'`/`'\r'` after it. -/
def presLabeled (lit s : List Char) : Bool :=
  match firstOccSuffix lit s with
  | none => false
  | some suf => suf.any isNL

/-- Tail after the first match of `(?:##\s*Word|\*\*Word:\*\*)`: either the
block-label literal, or `"##"` followed by a whitespace run and then `word`
(`word` starts with a non-whitespace letter, so the greedy `\s*` is forced to
the full run). -/
def blockStartTail (word lit : List Char) : List Char → Option (List Char)
  | [] => none
  | c :: rest =>
    if isPre "##".data (c :: rest)
        && isPre word (((c :: rest).drop 2).dropWhile pySpaceB) then
      some ((((c :: rest).drop 2).dropWhile pySpaceB).drop word.length)
    else if isPre lit (c :: rest) then
      some ((c :: rest).drop lit.length)
    else blockStartTail word lit rest

/-- Presence of the `summary` block pattern
`(?:##\s*Summary|\*\*Summary:\*\*)(.*?)(?:##|\*\*Key Insights:\*\*)` under
DOTALL|MULTILINE. -/
def presSummary (s : List Char) : Bool :=
  match blockStartTail "Summary".data "**Summary:**".data s with
  | none => false
  | some tail => containsSub "##".data tail || containsSub "**Key Insights:**".data tail

/-- Presence of the `key_insights` block pattern. -/
def presKeyInsights (s : List Char) : Bool :=
  match blockStartTail "Key Insights".data "**Key Insights:**".data s with
  | none => false
  | some tail => containsSub "##".data tail || containsSub "**Tags:**".data tail

/-- Presence of `\*\*Tags:\*\*\s*(.*?)$` under DOTALL|MULTILINE: `$` always
holds at the end of input, so the literal alone suffices. -/
def presTags (s : List Char) : Bool :=
  containsSub "**Tags:**".data s

/-- `re.match(r'^\d{4}-\d{2}-\d{2}$', s)`: the zero-padded shape check (no
calendar validation). -/
def ymdShape : List Char → Bool
  | [a, b, c, d, h1, e, f, h2, g, i] =>
    a.isDigit && b.isDigit && c.isDigit && d.isDigit && h1 = '-'
      && e.isDigit && f.isDigit && h2 = '-' && g.isDigit && i.isDigit
  | _ => false

/-- `[\w-]` restricted to ASCII (the documents under validation are ASCII). -/
def wordDash (c : Char) : Bool :=
  c.isAlphanum || c = '_' || c = '-'

/-- `re.match(r'^(#[\w-]+\s*)+$', s)`: repeated `#`, a maximal non-empty
`[\w-]+` run, a maximal `\s*` run, until the end.  The character classes are
pairwise disjoint, so the greedy/backtracking match is this deterministic
scan.  Fuelled; each round consumes at least two characters. -/
def tagsGrammarAux : Nat → List Char → Bool
  | 0, _ => false
  | fuel + 1, s =>
    match s with
    | '#' :: rest =>
      let w := rest.takeWhile wordDash
      if w.isEmpty then false
      else
        let r2 := (rest.drop w.length).dropWhile pySpaceB
        r2.isEmpty || tagsGrammarAux fuel r2
    | _ => false

def tagsGrammar (s : List Char) : Bool :=
  tagsGrammarAux s.length s

def sqChar : Char := Char.ofNat 39

/-- `f"Missing or invalid '{section_name}' section"`. -/
def missingErr (name : List Char) : List Char :=
  "Missing or invalid ".data ++ sqChar :: name ++ sqChar :: " section".data

/-- `f"Invalid URL format in title: {url}"`. -/
def urlErr (u : List Char) : List Char :=
  "Invalid URL format in title: ".data ++ u

/-- `f"Invalid date format: {date_str}. Should be YYYY-MM-DD"`. -/
def dateErrStr (d : List Char) : List Char :=
  "Invalid date format: ".data ++ d ++ ". Should be YYYY-MM-DD".data

/-- `f"Invalid tags format: {tags_str}. Tags should be ..."`. -/
def tagsErrStr (t : List Char) : List Char :=
  "Invalid tags format: ".data ++ t
    ++ ". Tags should be space-separated and start with #".data

/-- The required-sections loop, in the dictionary's insertion order. -/
def presenceErrors (content : List Char) : List (List Char) :=
  (if presTitle content then [] else [missingErr "title".data])
    ++ (if presLabeled authorLit content then [] else [missingErr "author".data])
    ++ (if presLabeled dateLit content then [] else [missingErr "date".data])
    ++ (if presLabeled addedByLit content then [] else [missingErr "added_by".data])
    ++ (if presLabeled addedOnLit content then [] else [missingErr "added_on".data])
    ++ (if presSummary content then [] else [missingErr "summary".data])
    ++ (if presKeyInsights content then [] else [missingErr "key_insights".data])
    ++ (if presTags content then [] else [missingErr "tags".data])

/-- The URL-scheme check (`url.startswith("http")` on the re-searched title). -/
def urlErrors (content : List Char) : List (List Char) :=
  match titleSearch content with
  | none => []
  | some tu => if isPre "http".data tu.2 then [] else [urlErr tu.2]

/-- One date-format check (`re.match(r'^\d{4}-\d{2}-\d{2}$', value.strip())`). -/
def dateErrorsFor (lit content : List Char) : List (List Char) :=
  match labeledValue lit content with
  | none => []
  | some v => if ymdShape (pyStrip v) then [] else [dateErrStr (pyStrip v)]

/-- The tags-grammar check on the stripped raw tags line. -/
def tagErrors (content : List Char) : List (List Char) :=
  match tagsValue content with
  | none => []
  | some v => if tagsGrammar (pyStrip v) then [] else [tagsErrStr (pyStrip v)]

/-- `validate_article_format`: all checks run, every failure collected, in
the order the code appends them. -/
def validate_article_format (content : List Char) : List (List Char) :=
  presenceErrors content
    ++ urlErrors content
    ++ dateErrorsFor dateLit content
    ++ dateErrorsFor addedOnLit content
    ++ tagErrors content

/-- Total error count over the processed documents. -/
def totalErrors (docs : List (List Char)) : Nat :=
  (docs.map (fun d => (validate_article_format d).length)).sum

/-- The exit code of `validate_articles.main` over the already-filtered
document contents: `0` when there is nothing to check or no errors were
collected, `1` otherwise. -/
def validateMain (docs : List (List Char)) : Nat :=
  if docs.isEmpty then 0
  else if 0 < totalErrors docs then 1 else 0

/-!  ## Lemmas about the aggregation machinery  -/

/-- The keys of an association list, in order. -/
def keysOf (m : List (List Char × Nat)) : List (List Char) :=
  m.map Prod.fst

/-- The count recorded for a key (`0` when absent, as for `defaultdict(int)`). -/
def lookupCount (m : List (List Char × Nat)) (k : List Char) : Nat :=
  (m.lookup k).getD 0

theorem bumpCount_keys (m : List (List Char × Nat)) (k : List Char) :
    keysOf (bumpCount m k) =
      if k ∈ keysOf m then keysOf m else keysOf m ++ [k] := by
  induction m with
  | nil => simp [bumpCount, keysOf]
  | cons p rest ih =>
    obtain ⟨k', c⟩ := p
    by_cases hk : k' = k
    · subst hk
      simp [bumpCount, keysOf]
    · simp only [bumpCount, if_neg hk, keysOf, List.map_cons] at *
      rw [ih]
      have hne : ¬ k = k' := fun h => hk h.symm
      by_cases hmem : k ∈ List.map Prod.fst rest
      · simp [hmem, hne]
      · simp [hmem, hne]

theorem bumpCount_lookup_self (m : List (List Char × Nat)) (k : List Char) :
    lookupCount (bumpCount m k) k = lookupCount m k + 1 := by
  induction m with
  | nil => simp [bumpCount, lookupCount, List.lookup]
  | cons p rest ih =>
    obtain ⟨k', c⟩ := p
    by_cases hk : k' = k
    · subst hk
      simp [bumpCount, lookupCount, List.lookup]
    · have hbe : (k == k') = false := by
        simp only [beq_eq_false_iff_ne, ne_eq]
        exact fun h => hk h.symm
      simp only [bumpCount, if_neg hk, lookupCount, List.lookup, hbe]
      exact ih

theorem bumpCount_lookup_other (m : List (List Char × Nat)) (k k' : List Char)
    (h : k' ≠ k) : lookupCount (bumpCount m k) k' = lookupCount m k' := by
  have hbe : (k' == k) = false := by simp only [beq_eq_false_iff_ne, ne_eq]; exact h
  induction m with
  | nil => simp [bumpCount, lookupCount, List.lookup, hbe]
  | cons p rest ih =>
    obtain ⟨k'', c⟩ := p
    by_cases hk : k'' = k
    · subst hk
      simp only [bumpCount, if_pos rfl, lookupCount, List.lookup, hbe]
    · by_cases hb : k' = k''
      · subst hb
        simp [bumpCount, if_neg hk, lookupCount, List.lookup]
      · have hbe2 : (k' == k'') = false := by
          simp only [beq_eq_false_iff_ne, ne_eq]; exact hb
        simp only [bumpCount, if_neg hk, lookupCount, List.lookup, hbe2]
        exact ih

theorem foldl_bumpCount_lookup :
    ∀ (ls : List (List Char)) (acc : List (List Char × Nat)) (k : List Char),
      lookupCount (ls.foldl bumpCount acc) k = lookupCount acc k + ls.count k := by
  intro ls
  induction ls with
  | nil => intro acc k; simp
  | cons a t ih =>
    intro acc k
    rw [List.foldl_cons, ih, List.count_cons]
    by_cases hk : k = a
    · subst hk
      rw [bumpCount_lookup_self]
      simp
      omega
    · have hbe : (a == k) = false := by
        simp only [beq_eq_false_iff_ne, ne_eq]
        exact fun h => hk h.symm
      rw [bumpCount_lookup_other acc a k hk]
      simp [hbe]

/-- The accumulated count of any label equals its number of occurrences in
the label stream. -/
theorem countsFold_lookup (ls : List (List Char)) (k : List Char) :
    lookupCount (countsFold ls) k = ls.count k := by
  rw [countsFold, foldl_bumpCount_lookup]
  simp [lookupCount, List.lookup]

theorem keys_sublist_bumpCount (m : List (List Char × Nat)) (k : List Char) :
    List.Sublist (keysOf m) (keysOf (bumpCount m k)) := by
  rw [bumpCount_keys]
  split
  · exact List.Sublist.refl _
  · exact List.sublist_append_left _ _

theorem sublist_keys_foldl (ls : List (List Char)) :
    ∀ (acc : List (List Char × Nat)) (l' : List (List Char)),
      List.Sublist l' (keysOf acc) →
      List.Sublist l' (keysOf (ls.foldl bumpCount acc)) := by
  induction ls with
  | nil => intro acc l' h; simpa using h
  | cons a t ih =>
    intro acc l' h
    rw [List.foldl_cons]
    exact ih (bumpCount acc a) l' (h.trans (keys_sublist_bumpCount acc a))

theorem mem_keys_bumpCount_self (m : List (List Char × Nat)) (k : List Char) :
    k ∈ keysOf (bumpCount m k) := by
  rw [bumpCount_keys]
  split
  · assumption
  · simp

theorem mem_keys_bumpCount_mono (m : List (List Char × Nat)) (k k' : List Char)
    (h : k' ∈ keysOf m) : k' ∈ keysOf (bumpCount m k) :=
  (keys_sublist_bumpCount m k).subset h

theorem not_mem_keys_bumpCount (m : List (List Char × Nat)) (k k' : List Char)
    (h : k' ∉ keysOf m) (hne : k' ≠ k) : k' ∉ keysOf (bumpCount m k) := by
  rw [bumpCount_keys]
  split
  · exact h
  · simp [h, hne]

theorem keys_pair_of_mem_next (ls : List (List Char)) :
    ∀ (acc : List (List Char × Nat)) (k₁ k₂ : List Char),
      k₁ ∈ keysOf acc → k₂ ∉ keysOf acc → k₂ ∈ ls →
      List.Sublist [k₁, k₂] (keysOf (ls.foldl bumpCount acc)) := by
  induction ls with
  | nil => intro acc k₁ k₂ _ _ h; simp at h
  | cons a t ih =>
    intro acc k₁ k₂ h₁ h₂ hmem
    rw [List.foldl_cons]
    by_cases ha : a = k₂
    · subst ha
      apply sublist_keys_foldl t (bumpCount acc a) [k₁, a]
      rw [bumpCount_keys, if_neg h₂]
      show List.Sublist ([k₁] ++ [a]) (keysOf acc ++ [a])
      exact List.Sublist.append (List.singleton_sublist.mpr h₁) (List.Sublist.refl _)
    · have hmem' : k₂ ∈ t := by
        rcases List.mem_cons.mp hmem with h | h
        · exact absurd h.symm ha
        · exact h
      exact ih (bumpCount acc a) k₁ k₂ (mem_keys_bumpCount_mono acc a k₁ h₁)
        (not_mem_keys_bumpCount acc a k₂ h₂ (fun h => ha h.symm)) hmem'

theorem indexOfL_cons_self (a : List Char) (t : List (List Char)) :
    List.indexOf a (a :: t) = 0 := by
  simp [List.indexOf_cons]

theorem indexOfL_cons_ne (a b : List Char) (t : List (List Char)) (h : b ≠ a) :
    List.indexOf a (b :: t) = List.indexOf a t + 1 := by
  have hbe : (b == a) = false := by
    simp only [beq_eq_false_iff_ne, ne_eq]; exact h
  simp [List.indexOf_cons, hbe]

theorem keys_pair_of_indexOf_lt (ls : List (List Char)) :
    ∀ (acc : List (List Char × Nat)) (k₁ k₂ : List Char),
      k₁ ∉ keysOf acc → k₂ ∉ keysOf acc → k₂ ∈ ls →
      ls.indexOf k₁ < ls.indexOf k₂ →
      List.Sublist [k₁, k₂] (keysOf (ls.foldl bumpCount acc)) := by
  induction ls with
  | nil => intro acc k₁ k₂ _ _ h; simp at h
  | cons a t ih =>
    intro acc k₁ k₂ h₁ h₂ hmem hidx
    have hne : k₁ ≠ k₂ := by
      intro h
      subst h
      exact Nat.lt_irrefl _ hidx
    rw [List.foldl_cons]
    by_cases ha1 : a = k₁
    · subst ha1
      have hmem' : k₂ ∈ t := by
        rcases List.mem_cons.mp hmem with h | h
        · exact absurd h.symm hne
        · exact h
      exact keys_pair_of_mem_next t (bumpCount acc a) a k₂
        (mem_keys_bumpCount_self acc a)
        (not_mem_keys_bumpCount acc a k₂ h₂ (fun h => hne h.symm)) hmem'
    · by_cases ha2 : a = k₂
      · subst ha2
        rw [indexOfL_cons_self] at hidx
        exact absurd hidx (Nat.not_lt_zero _)
      · have hmem' : k₂ ∈ t := by
          rcases List.mem_cons.mp hmem with h | h
          · exact absurd h.symm ha2
          · exact h
        have hidx' : t.indexOf k₁ < t.indexOf k₂ := by
          rw [indexOfL_cons_ne k₁ a t ha1, indexOfL_cons_ne k₂ a t ha2] at hidx
          omega
        exact ih (bumpCount acc a) k₁ k₂
          (not_mem_keys_bumpCount acc a k₁ h₁ (fun h => ha1 h.symm))
          (not_mem_keys_bumpCount acc a k₂ h₂ (fun h => ha2 h.symm)) hmem' hidx'

theorem nodup_keys_bumpCount (m : List (List Char × Nat)) (k : List Char)
    (h : (keysOf m).Nodup) : (keysOf (bumpCount m k)).Nodup := by
  rw [bumpCount_keys]
  split
  · exact h
  · next hmem => simp [List.nodup_append, h, hmem]

theorem nodup_keys_countsFold (ls : List (List Char)) :
    (keysOf (countsFold ls)).Nodup := by
  rw [countsFold]
  have : ∀ acc : List (List Char × Nat), (keysOf acc).Nodup →
      (keysOf (ls.foldl bumpCount acc)).Nodup := by
    induction ls with
    | nil => intro acc h; simpa using h
    | cons a t ih =>
      intro acc h
      rw [List.foldl_cons]
      exact ih (bumpCount acc a) (nodup_keys_bumpCount acc a h)
  exact this [] (by simp [keysOf])

theorem lookup_of_mem_nodup :
    ∀ (m : List (List Char × Nat)) (p : List Char × Nat),
      (keysOf m).Nodup → p ∈ m → m.lookup p.1 = some p.2 := by
  intro m
  induction m with
  | nil => intro p _ h; simp at h
  | cons q r ih =>
    intro p hnd hp
    rcases List.mem_cons.mp hp with h | h
    · subst h
      simp [List.lookup]
    · have hne : (p.1 == q.1) = false := by
        simp only [beq_eq_false_iff_ne, ne_eq]
        intro hq
        have : q.1 ∈ keysOf r := by
          rw [← hq]
          exact List.mem_map.mpr ⟨p, h, rfl⟩
        simp only [keysOf, List.map_cons, List.nodup_cons] at hnd
        exact hnd.1 this
      simp only [List.lookup, hne]
      exact ih p (by simpa [keysOf] using (List.nodup_cons.mp (by simpa [keysOf] using hnd)).2) h

theorem sublist_two_of_keys :
    ∀ (m : List (List Char × Nat)) (k₁ k₂ : List Char),
      List.Sublist [k₁, k₂] (keysOf m) →
      ∃ c₁ c₂, List.Sublist [(k₁, c₁), (k₂, c₂)] m := by
  intro m
  induction m with
  | nil => intro k₁ k₂ h; simp [keysOf] at h
  | cons p r ih =>
    intro k₁ k₂ h
    simp only [keysOf, List.map_cons] at h
    cases h with
    | cons _ h' =>
      obtain ⟨c₁, c₂, hs⟩ := ih k₁ k₂ h'
      exact ⟨c₁, c₂, hs.cons p⟩
    | cons₂ _ h' =>
      have hk₂ : k₂ ∈ keysOf r := List.singleton_sublist.mp h'
      obtain ⟨q, hq, hq1⟩ := List.mem_map.mp hk₂
      refine ⟨p.2, q.2, ?_⟩
      have h2 : List.Sublist [(k₂, q.2)] r := by
        rw [← hq1]
        exact List.singleton_sublist.mpr (show (q.1, q.2) ∈ r by simpa using hq)
      exact List.Sublist.cons₂ p h2

theorem mem_insertDesc (a x : List Char × Nat) (l : List (List Char × Nat)) :
    a ∈ insertDesc x l ↔ a = x ∨ a ∈ l := by
  induction l with
  | nil => simp [insertDesc]
  | cons y ys ih =>
    by_cases h : x.2 < y.2
    · simp only [insertDesc, if_pos h, List.mem_cons, ih]
      tauto
    · simp only [insertDesc, if_neg h, List.mem_cons]

theorem sublist_self_insertDesc (x : List Char × Nat) (l : List (List Char × Nat)) :
    List.Sublist l (insertDesc x l) := by
  induction l with
  | nil => simp [insertDesc]
  | cons y ys ih =>
    by_cases h : x.2 < y.2
    · simpa only [insertDesc, if_pos h] using List.Sublist.cons₂ y ih
    · simpa only [insertDesc, if_neg h] using List.Sublist.cons x (List.Sublist.refl _)

theorem perm_insertDesc (x : List Char × Nat) (l : List (List Char × Nat)) :
    List.Perm (insertDesc x l) (x :: l) := by
  induction l with
  | nil => simp [insertDesc]
  | cons y ys ih =>
    by_cases h : x.2 < y.2
    · simp only [insertDesc, if_pos h]
      exact (List.Perm.cons y ih).trans (List.Perm.swap x y ys)
    · simp [insertDesc, if_neg h]

theorem sortDesc_perm (l : List (List Char × Nat)) :
    List.Perm (sortDesc l) l := by
  induction l with
  | nil => simp [sortDesc]
  | cons x xs ih =>
    exact (perm_insertDesc x (sortDesc xs)).trans (List.Perm.cons x ih)

theorem pairwise_insertDesc (x : List Char × Nat) (l : List (List Char × Nat))
    (h : l.Pairwise (fun p q => q.2 ≤ p.2)) :
    (insertDesc x l).Pairwise (fun p q => q.2 ≤ p.2) := by
  induction l with
  | nil => simp [insertDesc]
  | cons y ys ih =>
    rcases List.pairwise_cons.mp h with ⟨hy, ht⟩
    by_cases hlt : x.2 < y.2
    · simp only [insertDesc, if_pos hlt]
      refine List.pairwise_cons.mpr ⟨?_, ih ht⟩
      intro z hz
      rcases (mem_insertDesc z x ys).mp hz with h | h
      · subst h; exact Nat.le_of_lt hlt
      · exact hy z h
    · simp only [insertDesc, if_neg hlt]
      refine List.pairwise_cons.mpr ⟨?_, h⟩
      intro z hz
      rcases List.mem_cons.mp hz with h' | h'
      · subst h'; exact Nat.le_of_not_lt hlt
      · exact Nat.le_trans (hy z h') (Nat.le_of_not_lt hlt)

theorem sortDesc_sorted (l : List (List Char × Nat)) :
    (sortDesc l).Pairwise (fun p q => q.2 ≤ p.2) := by
  induction l with
  | nil => simp [sortDesc]
  | cons x xs ih => exact pairwise_insertDesc x (sortDesc xs) ih

theorem insertDesc_keeps_before (x y : List Char × Nat) :
    ∀ (m : List (List Char × Nat)), y ∈ m → y.2 ≤ x.2 →
      List.Sublist [x, y] (insertDesc x m) := by
  intro m
  induction m with
  | nil => intro h; simp at h
  | cons b r ih =>
    intro hmem hle
    by_cases hlt : x.2 < b.2
    · simp only [insertDesc, if_pos hlt]
      have hyr : y ∈ r := by
        rcases List.mem_cons.mp hmem with h | h
        · subst h; omega
        · exact h
      exact (ih hyr hle).cons b
    · simp only [insertDesc, if_neg hlt]
      exact List.Sublist.cons₂ x (List.singleton_sublist.mpr hmem)

theorem sortDesc_stable :
    ∀ (l : List (List Char × Nat)) (x y : List Char × Nat),
      List.Sublist [x, y] l → y.2 ≤ x.2 →
      List.Sublist [x, y] (sortDesc l) := by
  intro l
  induction l with
  | nil => intro x y h _; cases h
  | cons a t ih =>
    intro x y h hle
    cases h with
    | cons _ h' =>
      exact ((ih x y h' hle).trans (sublist_self_insertDesc a (sortDesc t)))
    | cons₂ _ h' =>
      have hyt : y ∈ sortDesc t :=
        ((sortDesc_perm t).mem_iff).mpr (List.singleton_sublist.mp h')
      exact insertDesc_keeps_before a y (sortDesc t) hyt hle

theorem indexOf_lt_of_sublist_nodup :
    ∀ (l : List (List Char)) (x y : List Char),
      l.Nodup → List.Sublist [x, y] l → l.indexOf x < l.indexOf y := by
  intro l
  induction l with
  | nil => intro x y _ h; cases h
  | cons a t ih =>
    intro x y hnd h
    rcases List.nodup_cons.mp hnd with ⟨hna, hndt⟩
    cases h with
    | cons₂ _ h' =>
      have hyt : y ∈ t := List.singleton_sublist.mp h'
      have hya : a ≠ y := fun he => hna (he ▸ hyt)
      rw [indexOfL_cons_self, indexOfL_cons_ne y a t hya]
      exact Nat.succ_pos _
    | cons _ h' =>
      have hxt : x ∈ t := h'.subset (by simp)
      have hyt : y ∈ t := h'.subset (by simp)
      have hax : a ≠ x := fun he => hna (he ▸ hxt)
      have hay : a ≠ y := fun he => hna (he ▸ hyt)
      rw [indexOfL_cons_ne x a t hax, indexOfL_cons_ne y a t hay]
      exact Nat.succ_lt_succ (ih x y hndt h')

/-- The ranking of two equally-counted labels in the sorted counts follows
their first occurrences in the label stream. -/
theorem sorted_counts_stable_rank (ls : List (List Char)) (k₁ k₂ : List Char)
    (h₂ : k₂ ∈ ls) (hidx : ls.indexOf k₁ < ls.indexOf k₂)
    (hcnt : ls.count k₁ = ls.count k₂) :
    ((sortDesc (countsFold ls)).map Prod.fst).indexOf k₁ <
      ((sortDesc (countsFold ls)).map Prod.fst).indexOf k₂ := by
  have hkeys : List.Sublist [k₁, k₂] (keysOf (countsFold ls)) := by
    rw [countsFold]
    exact keys_pair_of_indexOf_lt ls [] k₁ k₂ (by simp [keysOf]) (by simp [keysOf]) h₂ hidx
  obtain ⟨c₁, c₂, hsub⟩ := sublist_two_of_keys (countsFold ls) k₁ k₂ hkeys
  have hnd := nodup_keys_countsFold ls
  have hc₁ : c₁ = ls.count k₁ := by
    have hm : (k₁, c₁) ∈ countsFold ls := hsub.subset (by simp)
    have := lookup_of_mem_nodup (countsFold ls) (k₁, c₁) hnd hm
    have h2 := countsFold_lookup ls k₁
    rw [lookupCount, this] at h2
    simpa using h2
  have hc₂ : c₂ = ls.count k₂ := by
    have hm : (k₂, c₂) ∈ countsFold ls := hsub.subset (by simp)
    have := lookup_of_mem_nodup (countsFold ls) (k₂, c₂) hnd hm
    have h2 := countsFold_lookup ls k₂
    rw [lookupCount, this] at h2
    simpa using h2
  have hle : ((k₂, c₂) : List Char × Nat).2 ≤ ((k₁, c₁) : List Char × Nat).2 := by
    simp [hc₁, hc₂, hcnt]
  have hsorted := sortDesc_stable (countsFold ls) (k₁, c₁) (k₂, c₂) hsub hle
  have hmap : List.Sublist [k₁, k₂] ((sortDesc (countsFold ls)).map Prod.fst) := by
    simpa using hsorted.map Prod.fst
  have hndmap : ((sortDesc (countsFold ls)).map Prod.fst).Nodup := by
    exact (((sortDesc_perm (countsFold ls)).map Prod.fst).nodup_iff).mpr hnd
  exact indexOf_lt_of_sublist_nodup _ k₁ k₂ hndmap hmap

theorem dtLtB_irrefl (a : PyDT) : dtLtB a a = false := by
  simp only [dtLtB, decide_eq_false_iff_not]
  omega

theorem dtLtB_false_trans (a b c : PyDT) (h1 : dtLtB a b = false)
    (h2 : dtLtB b c = false) : dtLtB a c = false := by
  simp only [dtLtB, decide_eq_false_iff_not] at *
  omega

theorem dtLtB_false_of_true_false (a b c : PyDT) (h1 : dtLtB b c = true)
    (h2 : dtLtB a c = false) : dtLtB a b = false := by
  simp only [dtLtB, decide_eq_true_eq, decide_eq_false_iff_not] at *
  omega

/-- `max` over a non-empty list of `datetime`s: the result is one of the
values and no value is strictly greater. -/
theorem pyMaxDT_spec :
    ∀ (ds : List PyDT) (d : PyDT),
      (pyMaxDT d ds = d ∨ pyMaxDT d ds ∈ ds)
        ∧ dtLtB (pyMaxDT d ds) d = false
        ∧ ∀ x ∈ ds, dtLtB (pyMaxDT d ds) x = false := by
  intro ds
  induction ds with
  | nil =>
    intro d
    refine ⟨Or.inl rfl, dtLtB_irrefl d, ?_⟩
    intro x hx
    simp at hx
  | cons x t ih =>
    intro d
    have hstep : pyMaxDT d (x :: t) = pyMaxDT (if dtLtB d x then x else d) t := rfl
    rw [hstep]
    by_cases hdx : dtLtB d x = true
    · rw [if_pos hdx]
      obtain ⟨hmem, hcur, hall⟩ := ih x
      refine ⟨?_, ?_, ?_⟩
      · rcases hmem with h | h
        · exact Or.inr (List.mem_cons.mpr (Or.inl h))
        · exact Or.inr (List.mem_cons.mpr (Or.inr h))
      · exact dtLtB_false_of_true_false _ d x hdx hcur
      · intro z hz
        rcases List.mem_cons.mp hz with h | h
        · subst h; exact hcur
        · exact hall z h
    · have hdx' : dtLtB d x = false := Bool.eq_false_iff.mpr hdx
      rw [if_neg hdx]
      obtain ⟨hmem, hcur, hall⟩ := ih d
      refine ⟨?_, hcur, ?_⟩
      · rcases hmem with h | h
        · exact Or.inl h
        · exact Or.inr (List.mem_cons.mpr (Or.inr h))
      · intro z hz
        rcases List.mem_cons.mp hz with h | h
        · subst h; exact dtLtB_false_trans _ d z hcur hdx'
        · exact hall z h

/-!  ## Claims  -/

/-- Failing input for C1: a README with both markers and existing section
bodies, patched with the renderer's own output for an empty catalog. -/
def c1Readme : List Char :=
  "# Repo\n\n## Recently Added Articles\n\nOLD1\n\n## Statistics\n\nOLD2\n\n## License\nMIT\n".data

set_option maxRecDepth 200000 in
/-- C1: the claim says applying DocumentPatcher twice with the same rendered
blocks yields a document identical to applying it once, the replacement
spanning to the next top-level heading.  The code is a slip: with
`re.MULTILINE` the `$` in the lookahead `(?=^#|$)` matches at every line end,
so the lazy match stops at the end of the marker's own line, the old section
body is never removed, and a second run duplicates the rendered block.
Evaluating the code at the failing input shows the second application
differs from the first. -/
theorem update_readme_file_not_idempotent :
    update_readme_file (format_recent_articles_section []) (generate_statistics [])
        (update_readme_file (format_recent_articles_section []) (generate_statistics []) c1Readme)
      ≠ update_readme_file (format_recent_articles_section []) (generate_statistics []) c1Readme := by
  decide

/-- A README in which the recent-articles marker does not occur. -/
def c2Readme : List Char := "# Repo\n\n## Statistics\n\nOLD\n".data

set_option maxRecDepth 200000 in
/-- C2 counterexample: the claim says that when a marker is missing the
patcher fails with an error and leaves the index document unmodified.  On a
document without the recent-articles marker the code raises nothing and
still rewrites the document — the statistics section is replaced, so the
output differs from the input. -/
theorem update_readme_missing_marker_still_writes :
    containsSub RECENT_ARTICLES_MARKER c2Readme = false
    ∧ update_readme_file (format_recent_articles_section []) (generate_statistics []) c2Readme
        ≠ c2Readme := by
  refine ⟨by decide, by decide⟩

/-- C2 (amended): when a marker label does not occur in the index document,
that marker's `re.sub` is a silent no-op — no error is raised, and the
document is still rewritten with only the other section's substitution
applied. -/
theorem update_readme_missing_marker_silent (readme recentSec statSec : List Char)
    (h : containsSub RECENT_ARTICLES_MARKER readme = false) :
    update_readme_file recentSec statSec readme
      = reSubAll '#' "# Statistics".data statSec readme := by
  unfold update_readme_file
  rw [reSubAll_of_not_contains '#' "# Recently Added Articles".data recentSec readme h]

/-- C2 witness: the amended theorem applied to a concrete markerless README. -/
theorem update_readme_missing_marker_silent_witness :
    containsSub RECENT_ARTICLES_MARKER "# A\n## Statistics\nZ\n".data = false
    ∧ update_readme_file "R".data "S".data "# A\n## Statistics\nZ\n".data
        = reSubAll '#' "# Statistics".data "S".data "# A\n## Statistics\nZ\n".data :=
  ⟨by decide,
   update_readme_missing_marker_silent "# A\n## Statistics\nZ\n".data "R".data "S".data (by decide)⟩

/-- A document whose `Added on` value parses via `strptime` but is not
zero-padded. -/
def c3doc : List Char := "# [T](http://u)\n**Added on:** 2024-1-5\n".data

/-- C3 counterexample: the claim says `latestDate` equals the `added_on`
display string of the record with the maximal order key.  The code formats
the maximal `date_obj` with `strftime('%Y-%m-%d')` instead; for the record
with display `"2024-1-5"` (which `strptime` accepts non-padded) the rendered
statistic is `"2024-01-05"`, not the display string. -/
theorem latest_update_not_display_string :
    (extract_article_info c3doc "./a/b.md".data ⟨1970, 1, 1, 0⟩ ⟨1970, 1, 1, 0⟩).map
        (fun a => (a.added_on, latest_update [a]))
      = some ("2024-1-5".data, "2024-01-05".data)
    ∧ "2024-1-5".data ≠ "2024-01-05".data := by
  refine ⟨by decide, by decide⟩

/-- C3 (amended): `latestDate` is the maximal `date_obj` (first maximal value
under CPython `max`; no record's order key is strictly greater) rendered as
zero-padded `YYYY-MM-DD`, and the sentinel `'N/A'` on the empty catalog; it
equals the maximal record's display string only when that display is itself
the canonical rendering of its order key. -/
theorem latest_update_formats_max :
    latest_update [] = "N/A".data
    ∧ ∀ (arts : List Article), arts ≠ [] →
        ∃ m : PyDT, (∃ b ∈ arts, b.date_obj = m)
          ∧ (∀ b ∈ arts, dtLtB m b.date_obj = false)
          ∧ latest_update arts = fmtYmd m := by
  refine ⟨rfl, ?_⟩
  intro arts hne
  match arts with
  | [] => exact absurd rfl hne
  | a :: as =>
    refine ⟨pyMaxDT a.date_obj (as.map (fun b => b.date_obj)), ?_, ?_, ?_⟩
    · obtain ⟨hmem, _, _⟩ := pyMaxDT_spec (as.map (fun b => b.date_obj)) a.date_obj
      rcases hmem with h | h
      · exact ⟨a, List.mem_cons_self a as, h.symm⟩
      · obtain ⟨b, hb, hbeq⟩ := List.mem_map.mp h
        exact ⟨b, List.mem_cons.mpr (Or.inr hb), hbeq⟩
    · obtain ⟨_, hcur, hall⟩ := pyMaxDT_spec (as.map (fun b => b.date_obj)) a.date_obj
      intro b hb
      rcases List.mem_cons.mp hb with h | h
      · subst h; exact hcur
      · exact hall b.date_obj (List.mem_map.mpr ⟨b, h, rfl⟩)
    · rfl

/-- C3 witness: the amended theorem applied to a concrete one-record catalog. -/
theorem latest_update_formats_max_witness :
    ([({ title := "T".data, url := "u".data, author := none,
         added_on := "2020-01-02".data, date_obj := ⟨2020, 1, 2, 0⟩,
         added_by := none, pub_date := none, tags := none,
         path := "p".data, topic := none, subtopic := none } : Article)] ≠ [])
    ∧ ∃ m : PyDT,
        (∃ b ∈ [({ title := "T".data, url := "u".data, author := none,
                   added_on := "2020-01-02".data, date_obj := ⟨2020, 1, 2, 0⟩,
                   added_by := none, pub_date := none, tags := none,
                   path := "p".data, topic := none, subtopic := none } : Article)],
           b.date_obj = m)
        ∧ (∀ b ∈ [({ title := "T".data, url := "u".data, author := none,
                     added_on := "2020-01-02".data, date_obj := ⟨2020, 1, 2, 0⟩,
                     added_by := none, pub_date := none, tags := none,
                     path := "p".data, topic := none, subtopic := none } : Article)],
             dtLtB m b.date_obj = false)
        ∧ latest_update [({ title := "T".data, url := "u".data, author := none,
                            added_on := "2020-01-02".data, date_obj := ⟨2020, 1, 2, 0⟩,
                            added_by := none, pub_date := none, tags := none,
                            path := "p".data, topic := none, subtopic := none } : Article)] = fmtYmd m :=
  ⟨by decide, latest_update_formats_max.2 _ (by decide)⟩

/-- A document whose tags line is `**Tags:** golang rust` (no `#` prefixes). -/
def c4doc : List Char := "# [T](http://u)\n**Tags:** golang rust\n".data

/-- C4 counterexample: the claim says extraction yields zero parsed tags for
`**Tags:** golang rust`.  `'golang rust'.split('#')` is `['golang rust']` —
the whole value survives as one parsed tag, so the record carries exactly one
tag, not zero. -/
theorem tags_without_hash_single_token :
    (extract_article_info c4doc "./a/b.md".data ⟨1970, 1, 1, 0⟩ ⟨1970, 1, 1, 0⟩).map
        (fun a => a.tags)
      = some (some ["golang rust".data])
    ∧ (["golang rust".data] : List (List Char)).length = 1 := by
  refine ⟨by decide, by decide⟩

/-- C4 (amended): for every document whose tags rule matched with stripped
raw value `golang rust`, ValidationEngine reports the invalid-tags-format
error, while extraction parses the whole value as the single tag
`"golang rust"` (splitting a `#`-free string on `#` keeps the string as one
token), so the record carries that one tag. -/
theorem tags_golang_rust_dual_policy (content : List Char) (v : List Char)
    (hm : tagsValue content = some v) (hv : pyStrip v = "golang rust".data) :
    tagsErrStr "golang rust".data ∈ validate_article_format content
    ∧ parseTags (pyStrip v) = ["golang rust".data]
    ∧ ∀ (path : List Char) (now mt : PyDT) (a : Article),
        extract_article_info content path now mt = some a →
        a.tags = some ["golang rust".data] := by
  have hgram : tagsGrammar "golang rust".data = false := by decide
  have htag : tagErrors content = [tagsErrStr "golang rust".data] := by
    simp [tagErrors, hm, hv, hgram]
  have hparse : parseTags "golang rust".data = ["golang rust".data] := by decide
  refine ⟨?_, by rw [hv]; exact hparse, ?_⟩
  · unfold validate_article_format
    rw [htag]
    simp
  · intro path now mt a h
    cases htitle : titleSearch content with
    | none =>
      rw [extract_article_info, htitle] at h
      exact absurd h (by simp)
    | some tu =>
      rw [extract_article_info, htitle] at h
      have := (Option.some.inj h).symm
      subst this
      simp [hm, hv, hparse]

/-- C4 witness: the amended theorem applied to the concrete document. -/
theorem tags_golang_rust_dual_policy_witness :
    tagsValue c4doc = some "golang rust".data
    ∧ pyStrip "golang rust".data = "golang rust".data
    ∧ (tagsErrStr "golang rust".data ∈ validate_article_format c4doc
       ∧ parseTags (pyStrip "golang rust".data) = ["golang rust".data]
       ∧ ∀ (path : List Char) (now mt : PyDT) (a : Article),
           extract_article_info c4doc path now mt = some a →
           a.tags = some ["golang rust".data]) :=
  ⟨by decide, by decide,
   tags_golang_rust_dual_policy c4doc "golang rust".data (by decide) (by decide)⟩

/-- A document with a matching title rule and no tags line. -/
def c5doc : List Char := "# [T](http://u)\n".data

/-- C5 counterexample: the claim says the `tags` field is always present
(empty sequence when no tags line matched).  When the tags rule does not
match, the code never assigns `article['tags']`: the key is absent from the
record, not the empty sequence. -/
theorem tags_key_absent_when_unmatched :
    (extract_article_info c5doc "p.md".data ⟨1970, 1, 1, 0⟩ ⟨1970, 1, 1, 0⟩).map
        (fun a => a.tags)
      = some none := by
  decide

/-- C5 (amended): the record's `tags` key is present exactly when the tags
rule matched (and then holds the parsed, possibly empty, list of strings);
when it did not match the key is absent, and the statistics consumer reads
it through `article.get('tags', [])`, so an absent key behaves as the empty
sequence downstream. -/
theorem tags_absent_iff_unmatched (content path : List Char) (now mt : PyDT)
    (a : Article) (h : extract_article_info content path now mt = some a) :
    (a.tags = none ↔ tagsValue content = none)
    ∧ (a.tags = none → tagsOf a = [])
    ∧ ∀ ts, a.tags = some ts → tagsOf a = ts := by
  refine ⟨?_, ?_, ?_⟩
  · cases htitle : titleSearch content with
    | none =>
      rw [extract_article_info, htitle] at h
      exact absurd h (by simp)
    | some tu =>
      rw [extract_article_info, htitle] at h
      have := (Option.some.inj h).symm
      subst this
      cases hm : tagsValue content with
      | none => simp [hm]
      | some v => simp [hm]
  · intro ht
    simp [tagsOf, ht]
  · intro ts ht
    simp [tagsOf, ht]

/-- C5 witness: the amended theorem applied to the concrete document without
a tags line. -/
theorem tags_absent_iff_unmatched_witness :
    extract_article_info c5doc "p.md".data ⟨1970, 1, 1, 0⟩ ⟨1970, 1, 1, 0⟩
      = some { title := "T".data, url := "http://u".data, author := none,
               added_on := "1970-01-01".data, date_obj := ⟨1970, 1, 1, 0⟩,
               added_by := none, pub_date := none, tags := none,
               path := "p.md".data, topic := none, subtopic := none }
    ∧ (({ title := "T".data, url := "http://u".data, author := none,
          added_on := "1970-01-01".data, date_obj := ⟨1970, 1, 1, 0⟩,
          added_by := none, pub_date := none, tags := none,
          path := "p.md".data, topic := none, subtopic := none } : Article).tags = none
        ↔ tagsValue c5doc = none) :=
  ⟨by decide,
   (tags_absent_iff_unmatched c5doc "p.md".data ⟨1970, 1, 1, 0⟩ ⟨1970, 1, 1, 0⟩ _ (by decide)).1⟩

/-- The claim's own notion, following the spec's words, for comparison with
the code's rule: a heading line (a line starting with the heading mark `#`)
that contains a bracketed markdown link `[label](target)`. -/
def specHeadingLineWithLink (content : List Char) : Bool :=
  (pySplit '\n' content).any (fun L =>
    isPre "#".data L &&
    (match afterFirstCh '[' L with
     | none => false
     | some s1 =>
       match afterFirstAdjRB s1 with
       | none => false
       | some s2 => s2.any (fun c => c = ')')))

/-- A document with no heading line at all, but a mid-line `#` followed by a
bracketed link. -/
def c6doc : List Char := "see # ref [a](b)\n".data

/-- C6 counterexample: the claim says a document lacking a heading line with
a bracketed link yields the not-an-article signal.  The rule
`#.*\[(.*?)\]\((.*?)\)` accepts a `#` anywhere in a line, so a document with
no heading line still produces a record. -/
theorem title_rule_matches_non_heading :
    specHeadingLineWithLink c6doc = false
    ∧ extract_article_info c6doc "p.md".data ⟨1970, 1, 1, 0⟩ ⟨1970, 1, 1, 0⟩ ≠ none := by
  refine ⟨by decide, by decide⟩

/-- C6 (amended): RecordBuilder returns the not-an-article signal exactly
when the title/url rule fails — the rule accepting any line with a `#`
somewhere before a bracketed link, not only heading lines — and a produced
record carries precisely the rule's two captured groups. -/
theorem extract_none_iff_title_rule_fails (content path : List Char) (now mt : PyDT) :
    (extract_article_info content path now mt = none ↔ titleSearch content = none)
    ∧ ∀ a, extract_article_info content path now mt = some a →
        titleSearch content = some (a.title, a.url) := by
  cases htitle : titleSearch content with
  | none =>
    constructor
    · rw [extract_article_info, htitle]
      simp
    · intro a h
      rw [extract_article_info, htitle] at h
      exact absurd h (by simp)
  | some tu =>
    constructor
    · rw [extract_article_info, htitle]
      simp
    · intro a h
      rw [extract_article_info, htitle] at h
      have := (Option.some.inj h).symm
      subst this
      rfl

/-- C6 witness: the amended theorem applied to a concrete matching document. -/
theorem extract_none_iff_title_rule_fails_witness :
    extract_article_info "# [T](u)\n".data "./x.md".data ⟨2030, 1, 1, 0⟩ ⟨2020, 1, 2, 3⟩
      = some { title := "T".data, url := "u".data, author := none,
               added_on := "2020-01-02".data, date_obj := ⟨2020, 1, 2, 3⟩,
               added_by := none, pub_date := none, tags := none,
               path := "./x.md".data, topic := some "x.md".data, subtopic := none }
    ∧ titleSearch "# [T](u)\n".data
        = some (({ title := "T".data, url := "u".data, author := none,
                   added_on := "2020-01-02".data, date_obj := ⟨2020, 1, 2, 3⟩,
                   added_by := none, pub_date := none, tags := none,
                   path := "./x.md".data, topic := some "x.md".data,
                   subtopic := none } : Article).title,
               ({ title := "T".data, url := "u".data, author := none,
                  added_on := "2020-01-02".data, date_obj := ⟨2020, 1, 2, 3⟩,
                  added_by := none, pub_date := none, tags := none,
                  path := "./x.md".data, topic := some "x.md".data,
                  subtopic := none } : Article).url) :=
  ⟨by decide,
   (extract_none_iff_title_rule_fails "# [T](u)\n".data "./x.md".data
       ⟨2030, 1, 1, 0⟩ ⟨2020, 1, 2, 3⟩).2 _ (by decide)⟩

/-- A document whose `Added on` value is a well-shaped but invalid calendar
date. -/
def c7doc : List Char := "# [T](http://u)\n**Added on:** 2024-13-45\n".data

/-- The record extracted from `c7doc` (order key falls back to the processing
time `⟨2030, 5, 6, 7⟩`). -/
def c7art : Article :=
  { title := "T".data, url := "http://u".data, author := none,
    added_on := "2024-13-45".data, date_obj := ⟨2030, 5, 6, 7⟩,
    added_by := none, pub_date := none, tags := none,
    path := "p.md".data, topic := none, subtopic := none }

/-- C7 counterexample: the claim says a matched-but-unparseable `Added on`
value is also reported as an invalid-date-format error by ValidationEngine.
RecordBuilder indeed keeps `"2024-13-45"` for display with the current time
as order key, but the validator only checks the shape `\d{4}-\d{2}-\d{2}`,
which `"2024-13-45"` satisfies — no invalid-date error is reported. -/
theorem bad_calendar_date_not_flagged :
    (extract_article_info c7doc "p.md".data ⟨2030, 5, 6, 7⟩ ⟨2020, 1, 2, 3⟩).map
        (fun a => (a.added_on, a.date_obj))
      = some ("2024-13-45".data, (⟨2030, 5, 6, 7⟩ : PyDT))
    ∧ ¬ dateErrStr "2024-13-45".data ∈ validate_article_format c7doc := by
  refine ⟨by decide, by decide⟩

/-- C7 (amended): RecordBuilder's fallback policy is as claimed — a matched
value that `strptime` parses is used verbatim for display with the parsed
date as order key; a matched value that does not parse keeps the raw string
for display with the current processing time as order key; an unmatched rule
derives both from the file's modification time.  ValidationEngine, however,
flags a matched value exactly when it fails the zero-padded shape
`\d{4}-\d{2}-\d{2}` — independent of `strptime` parseability (`2024-13-45`
passes the shape yet does not parse; `2024-1-5` parses yet fails the shape). -/
theorem added_on_fallback_policy (content path : List Char) (now mt : PyDT)
    (a : Article) (h : extract_article_info content path now mt = some a) :
    (∀ v, labeledValue addedOnLit content = some v →
       a.added_on = pyStrip v
       ∧ ((∃ y mo d, strptimeYmd (pyStrip v) = some (y, mo, d)
             ∧ a.date_obj = ⟨y, mo, d, 0⟩)
          ∨ (strptimeYmd (pyStrip v) = none ∧ a.date_obj = now)))
    ∧ (labeledValue addedOnLit content = none →
        a.added_on = fmtYmd mt ∧ a.date_obj = mt)
    ∧ (∀ v, labeledValue addedOnLit content = some v →
        ymdShape (pyStrip v) = false →
        dateErrStr (pyStrip v) ∈ validate_article_format content) := by
  cases htitle : titleSearch content with
  | none =>
    rw [extract_article_info, htitle] at h
    exact absurd h (by simp)
  | some tu =>
    rw [extract_article_info, htitle] at h
    have := (Option.some.inj h).symm
    subst this
    refine ⟨?_, ?_, ?_⟩
    · intro v hv
      cases hp : strptimeYmd (pyStrip v) with
      | none => simp [hv, hp]
      | some ymd =>
        exact ⟨by simp [hv, hp], Or.inl ⟨ymd.1, ymd.2.1, ymd.2.2, rfl, by simp [hv, hp]⟩⟩
    · intro hv
      simp [hv]
    · intro v hv hshape
      have hd : dateErrorsFor addedOnLit content = [dateErrStr (pyStrip v)] := by
        simp [dateErrorsFor, hv, hshape]
      unfold validate_article_format
      rw [hd]
      simp

/-- C7 witness: the fallback branch (unparseable value, order key = now) at
`c7doc`, and the validator branch at a value failing the shape check. -/
theorem added_on_fallback_policy_witness :
    extract_article_info c7doc "p.md".data ⟨2030, 5, 6, 7⟩ ⟨2020, 1, 2, 3⟩ = some c7art
    ∧ labeledValue addedOnLit c7doc = some "2024-13-45".data
    ∧ (c7art.added_on = pyStrip "2024-13-45".data
       ∧ ((∃ y mo d, strptimeYmd (pyStrip "2024-13-45".data) = some (y, mo, d)
             ∧ c7art.date_obj = ⟨y, mo, d, 0⟩)
          ∨ (strptimeYmd (pyStrip "2024-13-45".data) = none
             ∧ c7art.date_obj = ⟨2030, 5, 6, 7⟩))) :=
  ⟨by decide, by decide,
   (added_on_fallback_policy c7doc "p.md".data ⟨2030, 5, 6, 7⟩ ⟨2020, 1, 2, 3⟩ c7art
       (by decide)).1 "2024-13-45".data (by decide)⟩

/-- The URL check passes: no title match, or a url beginning with `http`. -/
def urlCheckOK (content : List Char) : Bool :=
  match titleSearch content with
  | none => true
  | some tu => isPre "http".data tu.2

/-- A date check passes: no match, or a stripped value of shape
`\d{4}-\d{2}-\d{2}`. -/
def dateCheckOK (lit content : List Char) : Bool :=
  match labeledValue lit content with
  | none => true
  | some v => ymdShape (pyStrip v)

/-- The tags check passes: no match, or a stripped value in the
`(#[\w-]+\s*)+` grammar. -/
def tagsCheckOK (content : List Char) : Bool :=
  match tagsValue content with
  | none => true
  | some v => tagsGrammar (pyStrip v)

theorem ifNil_eq_nil_iff (b : Bool) (e : List Char) :
    (if b = true then ([] : List (List Char)) else [e]) = [] ↔ b = true := by
  cases b <;> simp

theorem presenceErrors_eq_nil_iff (content : List Char) :
    presenceErrors content = [] ↔
      (presTitle content = true ∧ presLabeled authorLit content = true
       ∧ presLabeled dateLit content = true ∧ presLabeled addedByLit content = true
       ∧ presLabeled addedOnLit content = true ∧ presSummary content = true
       ∧ presKeyInsights content = true ∧ presTags content = true) := by
  simp only [presenceErrors, List.append_eq_nil, ifNil_eq_nil_iff]
  tauto

theorem urlErrors_eq_nil_iff (content : List Char) :
    urlErrors content = [] ↔ urlCheckOK content = true := by
  unfold urlErrors urlCheckOK
  cases titleSearch content with
  | none => simp
  | some tu => cases h : isPre "http".data tu.2 <;> simp [h]

theorem dateErrorsFor_eq_nil_iff (lit content : List Char) :
    dateErrorsFor lit content = [] ↔ dateCheckOK lit content = true := by
  unfold dateErrorsFor dateCheckOK
  cases labeledValue lit content with
  | none => simp
  | some v => cases h : ymdShape (pyStrip v) <;> simp [h]

theorem tagErrors_eq_nil_iff (content : List Char) :
    tagErrors content = [] ↔ tagsCheckOK content = true := by
  unfold tagErrors tagsCheckOK
  cases tagsValue content with
  | none => simp
  | some v => cases h : tagsGrammar (pyStrip v) <;> simp [h]

theorem totalErrors_eq_zero_iff (docs : List (List Char)) :
    totalErrors docs = 0 ↔ ∀ d ∈ docs, validate_article_format d = [] := by
  unfold totalErrors
  induction docs with
  | nil => simp
  | cons d t ih =>
    simp only [List.map_cons, List.sum_cons, Nat.add_eq_zero, List.length_eq_zero,
      List.forall_mem_cons, ih]

/-- C8: ValidationEngine runs all of its checks and collects every failure
(the error list is empty exactly when each of the eight presence checks, the
URL-scheme check, both date-format checks and the tags-grammar check pass),
and the validation run exits with failure exactly when the total collected
error count over the processed documents is nonzero. -/
theorem validate_collects_all_checks_and_exit_contract :
    (∀ content : List Char,
      validate_article_format content = [] ↔
        (presTitle content = true ∧ presLabeled authorLit content = true
         ∧ presLabeled dateLit content = true ∧ presLabeled addedByLit content = true
         ∧ presLabeled addedOnLit content = true ∧ presSummary content = true
         ∧ presKeyInsights content = true ∧ presTags content = true
         ∧ urlCheckOK content = true ∧ dateCheckOK dateLit content = true
         ∧ dateCheckOK addedOnLit content = true ∧ tagsCheckOK content = true))
    ∧ (∀ docs : List (List Char),
        validateMain docs = 0 ↔ ∀ d ∈ docs, validate_article_format d = [])
    ∧ (∀ docs : List (List Char),
        validateMain docs = 1 ↔ ∃ d ∈ docs, validate_article_format d ≠ []) := by
  refine ⟨?_, ?_, ?_⟩
  · intro content
    unfold validate_article_format
    simp only [List.append_eq_nil, presenceErrors_eq_nil_iff, urlErrors_eq_nil_iff,
      dateErrorsFor_eq_nil_iff, tagErrors_eq_nil_iff]
    tauto
  · intro docs
    unfold validateMain
    by_cases he : docs.isEmpty
    · have : docs = [] := List.isEmpty_iff.mp he
      subst this
      simp
    · rw [if_neg he]
      by_cases h0 : totalErrors docs = 0
      · rw [if_neg (by omega)]
        constructor
        · intro _; exact (totalErrors_eq_zero_iff docs).mp h0
        · intro _; rfl
      · have hpos : 0 < totalErrors docs := Nat.pos_of_ne_zero h0
        rw [if_pos hpos]
        constructor
        · intro h; exact absurd h (by decide)
        · intro hall
          exact absurd ((totalErrors_eq_zero_iff docs).mpr hall) h0
  · intro docs
    unfold validateMain
    by_cases he : docs.isEmpty
    · have : docs = [] := List.isEmpty_iff.mp he
      subst this
      simp
    · rw [if_neg he]
      by_cases h0 : totalErrors docs = 0
      · rw [if_neg (by omega)]
        constructor
        · intro h; exact absurd h (by decide)
        · intro ⟨d, hd, hne⟩
          exact absurd ((totalErrors_eq_zero_iff docs).mp h0 d hd) hne
      · have hpos : 0 < totalErrors docs := Nat.pos_of_ne_zero h0
        rw [if_pos hpos]
        constructor
        · intro _
          by_contra hno
          push_neg at hno
          exact h0 ((totalErrors_eq_zero_iff docs).mpr hno)
        · intro _; rfl

/-- C9: each of the three category mappings is independently the stable
count-descending sort of its first-seen-ordered counts, truncated to its
fixed top-N (topics 5, contributors 5, tags 10); the truncated lists are
count-descending; and for any two labels with equal occurrence counts, the
one whose first occurrence in the label stream is earlier ranks earlier
among the sorted keys (stability of CPython's sort on accumulation insertion
order, which is first-seen order). -/
theorem generate_statistics_topn_sorted_stable :
    (∀ arts : List Article,
      topTopics arts = (sortDesc (countsFold (arts.map topicLabel))).take 5
      ∧ topContributors arts = (sortDesc (countsFold (arts.map contribLabel))).take 5
      ∧ topTags arts = (sortDesc (countsFold (tagStream arts))).take 10
      ∧ (topTopics arts).Pairwise (fun p q => q.2 ≤ p.2)
      ∧ (topContributors arts).Pairwise (fun p q => q.2 ≤ p.2)
      ∧ (topTags arts).Pairwise (fun p q => q.2 ≤ p.2))
    ∧ (∀ (ls : List (List Char)) (k₁ k₂ : List Char),
        k₁ ∈ ls → k₂ ∈ ls → ls.indexOf k₁ < ls.indexOf k₂ →
        ls.count k₁ = ls.count k₂ →
        ((sortDesc (countsFold ls)).map Prod.fst).indexOf k₁ <
          ((sortDesc (countsFold ls)).map Prod.fst).indexOf k₂) := by
  constructor
  · intro arts
    refine ⟨rfl, rfl, rfl, ?_, ?_, ?_⟩
    · exact List.Pairwise.sublist (List.take_sublist _ _) (sortDesc_sorted _)
    · exact List.Pairwise.sublist (List.take_sublist _ _) (sortDesc_sorted _)
    · exact List.Pairwise.sublist (List.take_sublist _ _) (sortDesc_sorted _)
  · intro ls k₁ k₂ _ h₂ hidx hcnt
    exact sorted_counts_stable_rank ls k₁ k₂ h₂ hidx hcnt

/-- C9 witness: the ranking part applied to a concrete label stream with an
exact count tie (`aa` and `bb` both occur twice; `aa` is first seen first
and ranks first). -/
theorem generate_statistics_topn_sorted_stable_witness :
    ("aa".data ∈ ["aa".data, "bb".data, "aa".data, "bb".data])
    ∧ ("bb".data ∈ ["aa".data, "bb".data, "aa".data, "bb".data])
    ∧ (["aa".data, "bb".data, "aa".data, "bb".data].indexOf "aa".data
        < ["aa".data, "bb".data, "aa".data, "bb".data].indexOf "bb".data)
    ∧ (["aa".data, "bb".data, "aa".data, "bb".data].count "aa".data
        = ["aa".data, "bb".data, "aa".data, "bb".data].count "bb".data)
    ∧ ((sortDesc (countsFold ["aa".data, "bb".data, "aa".data, "bb".data])).map Prod.fst).indexOf "aa".data
        < ((sortDesc (countsFold ["aa".data, "bb".data, "aa".data, "bb".data])).map Prod.fst).indexOf "bb".data :=
  ⟨by decide, by decide, by decide, by decide,
   generate_statistics_topn_sorted_stable.2 ["aa".data, "bb".data, "aa".data, "bb".data]
     "aa".data "bb".data (by decide) (by decide) (by decide) (by decide)⟩

/-- C10: in the statistics aggregation, the count recorded under the literal
label "Uncategorized" is exactly the number of records whose topic label
defaulted to it, and likewise "Unknown" for contributors; a record with no
`topic` key is labeled "Uncategorized", one with no `added_by` key is
labeled "Unknown"; and extraction leaves `topic` absent exactly on paths
with fewer than two `/`-separated segments. -/
theorem default_category_labels :
    (∀ arts : List Article,
      lookupCount (countsFold (arts.map topicLabel)) "Uncategorized".data
        = (arts.map topicLabel).count "Uncategorized".data
      ∧ lookupCount (countsFold (arts.map contribLabel)) "Unknown".data
        = (arts.map contribLabel).count "Unknown".data)
    ∧ (∀ a : Article,
        (a.topic = none → topicLabel a = "Uncategorized".data)
        ∧ (a.added_by = none → contribLabel a = "Unknown".data))
    ∧ (∀ (content path : List Char) (now mt : PyDT) (a : Article),
        extract_article_info content path now mt = some a →
        (pySplit '/' path).length < 2 → a.topic = none) := by
  refine ⟨?_, ?_, ?_⟩
  · intro arts
    exact ⟨countsFold_lookup _ _, countsFold_lookup _ _⟩
  · intro a
    constructor
    · intro h; simp [topicLabel, h]
    · intro h; simp [contribLabel, h]
  · intro content path now mt a h hlen
    cases htitle : titleSearch content with
    | none =>
      rw [extract_article_info, htitle] at h
      exact absurd h (by simp)
    | some tu =>
      rw [extract_article_info, htitle] at h
      have := (Option.some.inj h).symm
      subst this
      simp only []
      rw [if_neg (by omega)]

/-- C10 witness: the extraction part applied to a document stored directly
at the repository root (a one-segment path), whose record is counted under
"Uncategorized". -/
theorem default_category_labels_witness :
    extract_article_info "# [W](http://w)\n".data "w.md".data ⟨1970, 1, 1, 0⟩ ⟨1999, 12, 31, 5⟩
      = some { title := "W".data, url := "http://w".data, author := none,
               added_on := "1999-12-31".data, date_obj := ⟨1999, 12, 31, 5⟩,
               added_by := none, pub_date := none, tags := none,
               path := "w.md".data, topic := none, subtopic := none }
    ∧ (pySplit '/' "w.md".data).length < 2
    ∧ ({ title := "W".data, url := "http://w".data, author := none,
         added_on := "1999-12-31".data, date_obj := ⟨1999, 12, 31, 5⟩,
         added_by := none, pub_date := none, tags := none,
         path := "w.md".data, topic := none, subtopic := none } : Article).topic = none :=
  ⟨by decide, by decide,
   default_category_labels.2.2 "# [W](http://w)\n".data "w.md".data
     ⟨1970, 1, 1, 0⟩ ⟨1999, 12, 31, 5⟩ _ (by decide) (by decide)⟩

/-- C8 witness: the exit contract applied to a concrete single-document run
with no validation errors. -/
theorem validate_collects_all_checks_and_exit_contract_witness :
    validateMain ["# good [a](http://x)\n**Author:** A\n**Date:** 2024-01-02\n**Added by:** B\n**Added on:** 2024-03-04\n**Summary:** s\n**Key Insights:** k\n**Tags:** #a_b\n".data] = 0 :=
  (validate_collects_all_checks_and_exit_contract.2.1
    ["# good [a](http://x)\n**Author:** A\n**Date:** 2024-01-02\n**Added by:** B\n**Added on:** 2024-03-04\n**Summary:** s\n**Key Insights:** k\n**Tags:** #a_b\n".data]).mpr
    (by decide)
